import Mathlib

/-!
Shallow embedding of `tools/precompute_real_routes.py` (go-dot-delivery).

The script loads three JSON collections (hubs, edges, locations), routes
each hub edge and each location→hub link through an external routing
service (OSRM), applies a per-item fallback when the request fails, and
finally writes the two enriched collections.

Modelling choices:
* Geographic coordinates and clock values are modelled as `ℚ` — the
  pipeline only ever passes coordinates through, and the progress
  arithmetic is exact-field arithmetic.
* JSON dict records appended to the output lists are modelled as
  association lists `List (String × JVal)`, so field presence is a real
  property of a record (needed because the hub-edge fallback appends the
  raw input edge dict, which lacks `distance_m`/`duration_s`).
* The routing service is an external nondeterministic collaborator: each
  phase takes an oracle `ℕ → Option RouteResult` giving the outcome of
  the routing request for the item at that index (`none` = any exception
  raised by `route_osrm`, caught by the `except Exception` handler).
* `hubs_by_id[k]` (Python dict access, later duplicates win, `KeyError`
  on a missing key) is modelled by `hubsById`, an `Option`-returning
  lookup that searches the hub list from the back.
* A run that raises `KeyError` (unresolved id) aborts with no output
  written; the pipeline functions return `none` in that case and also
  return how many routing requests were issued before the abort, so that
  "no network calls were made" is a statable property.
-/

set_option autoImplicit false

namespace PrecomputeRealRoutes

/-- A value stored in one of the output JSON dict records: an integer
(`distance_m` / `duration_s`), a string id (`from` / `to`), or a list of
`[lng, lat]` coordinate pairs (`polyline`). -/
inductive JVal where
  | jInt (n : Int)
  | jStr (s : String)
  | jCoords (l : List (ℚ × ℚ))
deriving DecidableEq, Repr

/-- A JSON dict record as built by the script (`real_edges` / `real_links`
entries): an ordered association list of fields. -/
abbrev JRec := List (String × JVal)

/-- Python `k in d` / first lookup of a field in a record. -/
def hasKey (r : JRec) (k : String) : Bool :=
  r.any (fun p => p.1 == k)

/-- Lookup of a field's value in a record (`d[k]`, `none` if absent). -/
def getKey (r : JRec) (k : String) : Option JVal :=
  (r.find? (fun p => p.1 == k)).map (fun p => p.2)

/-- A hub record from `hubs.json`: `{id, lat, lng}`. -/
structure Hub where
  id : String
  lat : ℚ
  lng : ℚ
deriving DecidableEq, Repr

/-- An input edge record from `edges.json`: `{from, to}` (hub ids). -/
structure Edge where
  from_ : String
  to_ : String
deriving DecidableEq, Repr

/-- A location record from `locations.json`: `{id, hubId, lat, lng}`. -/
structure Loc where
  id : String
  hubId : String
  lat : ℚ
  lng : ℚ
deriving DecidableEq, Repr

/-- A successful `route_osrm` result: the parsed first route of the
response — `coords` (geometry), `distance_m`, `duration_s` (ints after
rounding). -/
structure RouteResult where
  coords : List (ℚ × ℚ)
  distance_m : Int
  duration_s : Int
deriving DecidableEq, Repr

/-- `hubs_by_id = {h["id"]: h for h in hubs}` followed by `hubs_by_id[i]`:
a dict comprehension keeps the last record for a duplicated id, and access
to a missing key raises `KeyError` (modelled as `none`). -/
def hubsById (hubs : List Hub) (i : String) : Option Hub :=
  hubs.reverse.find? (fun h => h.id == i)

/-- The dict form of a raw input edge `e` — what `real_edges.append(e)`
appends on the hub-edge fallback path. -/
def edgeRec (e : Edge) : JRec :=
  [("from", JVal.jStr e.from_), ("to", JVal.jStr e.to_)]

/-- The dict appended for a hub edge when `route_osrm` succeeds. -/
def routedEdgeRec (e : Edge) (r : RouteResult) : JRec :=
  [("from", JVal.jStr e.from_), ("to", JVal.jStr e.to_),
   ("distance_m", JVal.jInt r.distance_m), ("duration_s", JVal.jInt r.duration_s),
   ("polyline", JVal.jCoords r.coords)]

/-- The dict appended for a location link when `route_osrm` succeeds. -/
def routedLinkRec (l : Loc) (r : RouteResult) : JRec :=
  [("from", JVal.jStr l.id), ("to", JVal.jStr l.hubId),
   ("distance_m", JVal.jInt r.distance_m), ("duration_s", JVal.jInt r.duration_s),
   ("polyline", JVal.jCoords r.coords)]

/-- The straight-line fallback dict appended for a location link when
`route_osrm` raises: zero distance and duration, two-point polyline
`[[loc.lng, loc.lat], [hub.lng, hub.lat]]`. -/
def fallbackLinkRec (l : Loc) (hub : Hub) : JRec :=
  [("from", JVal.jStr l.id), ("to", JVal.jStr l.hubId),
   ("distance_m", JVal.jInt 0), ("duration_s", JVal.jInt 0),
   ("polyline", JVal.jCoords [(l.lng, l.lat), (hub.lng, hub.lat)])]

/-- The `try`/`except` body of the hub-edge loop: the record appended for
edge `e` at loop index `i`, given the oracle outcome of its routing
request (success record, or the raw edge on failure). -/
def edgeRecFor (oracle : ℕ → Option RouteResult) (i : ℕ) (e : Edge) : JRec :=
  match oracle i with
  | some r => routedEdgeRec e r
  | none => edgeRec e

/-- The `try`/`except` body of the location-link loop: the record appended
for location `l` (whose owning hub is `hub`) at loop index `i`. -/
def linkRecFor (oracle : ℕ → Option RouteResult) (i : ℕ) (l : Loc) (hub : Hub) : JRec :=
  match oracle i with
  | some r => routedLinkRec l r
  | none => fallbackLinkRec l hub

/-- The hub-edge loop of `main`. For each edge, `hubs_by_id[e["from"]]`
and `hubs_by_id[e["to"]]` are looked up *outside* the `try` block, so an
unresolved id raises `KeyError` and aborts the run (`none`); otherwise one
routing request is issued and one record appended. Returns the `real_edges`
list (or `none` on abort) together with the number of routing requests
issued. -/
def runEdges (hubs : List Hub) (oracle : ℕ → Option RouteResult) :
    List Edge → ℕ → Option (List JRec) × ℕ
  | [], _ => (some [], 0)
  | e :: rest, i =>
    match hubsById hubs e.from_, hubsById hubs e.to_ with
    | some _, some _ =>
      let recd := edgeRecFor oracle i e
      let next := runEdges hubs oracle rest (i + 1)
      (next.1.map (fun out => recd :: out), next.2 + 1)
    | _, _ => (none, 0)

/-- The location-link loop of `main`. `hubs_by_id[loc["hubId"]]` is
looked up outside the `try` block, so an unresolved `hubId` aborts the
run; otherwise one routing request is issued and one record appended
(routed or straight-line fallback). Returns the `real_links` list (or
`none` on abort) with the number of routing requests issued. -/
def runLinks (hubs : List Hub) (oracle : ℕ → Option RouteResult) :
    List Loc → ℕ → Option (List JRec) × ℕ
  | [], _ => (some [], 0)
  | l :: rest, i =>
    match hubsById hubs l.hubId with
    | some hub =>
      let recd := linkRecFor oracle i l hub
      let next := runLinks hubs oracle rest (i + 1)
      (next.1.map (fun out => recd :: out), next.2 + 1)
    | none => (none, 0)

/-- The two output collections written at the end of a successful run:
`edges.real.json`'s `edges` list and `location_links.real.json`'s `links`
list. -/
structure RunOutput where
  real_edges : List JRec
  real_links : List JRec
deriving DecidableEq, Repr

/-- `main`, as observable behaviour: runs the hub-edge loop, then the
location-link loop, then writes both files. An uncaught `KeyError` in
either loop aborts before anything is written (`none`). The two trailing
numbers are the routing-request counts of the two phases (requests
actually issued before completion or abort). -/
def runMainT (hubs : List Hub) (edges : List Edge) (locs : List Loc)
    (eOracle lOracle : ℕ → Option RouteResult) : Option RunOutput × ℕ × ℕ :=
  let er := runEdges hubs eOracle edges 0
  match er.1 with
  | none => (none, er.2, 0)
  | some es =>
    let lr := runLinks hubs lOracle locs 0
    match lr.1 with
    | none => (none, er.2, lr.2)
    | some ls => (some ⟨es, ls⟩, er.2, lr.2)

/-- Concrete hubs for witnesses: the spec's scenario hubs H1 at (0,0) and
H2 at (1,1). -/
def demoHubs : List Hub := [⟨"H1", 0, 0⟩, ⟨"H2", 1, 1⟩]

/-- Concrete edge list for witnesses: the single edge H1 → H2. -/
def demoEdges : List Edge := [⟨"H1", "H2"⟩]

/-- Concrete location for witnesses: L1 owned by H1 at (0.5, 0.5). -/
def demoLoc : Loc := ⟨"L1", "H1", 1/2, 1/2⟩

/-- Concrete location list for witnesses. -/
def demoLocs : List Loc := [demoLoc]

/-- An oracle under which every routing request raises. -/
def failOracle : ℕ → Option RouteResult := fun _ => none

/-- An oracle under which every routing request succeeds with the spec
scenario's route (polyline [[0,0],[0.5,0.5],[1,1]], 1000 m, 120 s). -/
def okOracle : ℕ → Option RouteResult :=
  fun _ => some ⟨[(0, 0), (1/2, 1/2), (1, 1)], 1000, 120⟩

/-- Hubs for the missing-id counterexample: only H1 exists. -/
def cex5Hubs : List Hub := [⟨"H1", 0, 0⟩]

/-- Edges for the missing-id counterexample: the first edge resolves, the
second one references the nonexistent hub HX. -/
def cex5Edges : List Edge := [⟨"H1", "H1"⟩, ⟨"H1", "HX"⟩]

/-- `pct = (done / total) * 100 if total else 100` in `progress`. -/
def progressPct (done total : ℕ) : ℚ :=
  if total ≠ 0 then ((done : ℚ) / (total : ℚ)) * 100 else 100

/-- `rate = done / elapsed if elapsed > 0 else 0` in `progress`. -/
def progressRate (done : ℕ) (elapsed : ℚ) : ℚ :=
  if 0 < elapsed then (done : ℚ) / elapsed else 0

/-- `remaining = (total - done) / rate if rate > 0 else 0` in `progress`. -/
def progressRemaining (done total : ℕ) (elapsed : ℚ) : ℚ :=
  if 0 < progressRate done elapsed then
    ((total : ℚ) - (done : ℚ)) / progressRate done elapsed
  else 0

/-! ## Helper lemmas -/

/-- Whatever the oracle outcome, the record appended for an edge carries
the edge's `from` id in its `from` field. -/
theorem getKey_edgeRecFor_from (oracle : ℕ → Option RouteResult) (i : ℕ) (e : Edge) :
    getKey (edgeRecFor oracle i e) "from" = some (JVal.jStr e.from_) := by
  cases h : oracle i <;> simp only [edgeRecFor, h] <;> rfl

/-- Whatever the oracle outcome, the record appended for an edge carries
the edge's `to` id in its `to` field. -/
theorem getKey_edgeRecFor_to (oracle : ℕ → Option RouteResult) (i : ℕ) (e : Edge) :
    getKey (edgeRecFor oracle i e) "to" = some (JVal.jStr e.to_) := by
  cases h : oracle i <;> simp only [edgeRecFor, h] <;> rfl

/-- Whatever the oracle outcome, the record appended for a location link
carries the location id in its `from` field. -/
theorem getKey_linkRecFor_from (oracle : ℕ → Option RouteResult) (i : ℕ) (l : Loc) (hub : Hub) :
    getKey (linkRecFor oracle i l hub) "from" = some (JVal.jStr l.id) := by
  cases h : oracle i <;> simp only [linkRecFor, h] <;> rfl

/-- Whatever the oracle outcome, the record appended for a location link
carries the location's `hubId` in its `to` field. -/
theorem getKey_linkRecFor_to (oracle : ℕ → Option RouteResult) (i : ℕ) (l : Loc) (hub : Hub) :
    getKey (linkRecFor oracle i l hub) "to" = some (JVal.jStr l.hubId) := by
  cases h : oracle i <;> simp only [linkRecFor, h] <;> rfl

/-- Every record appended by the location-link loop, routed or fallback,
has the `distance_m` and `duration_s` fields. -/
theorem hasKeys_linkRecFor (oracle : ℕ → Option RouteResult) (i : ℕ) (l : Loc) (hub : Hub) :
    hasKey (linkRecFor oracle i l hub) "distance_m" = true ∧
    hasKey (linkRecFor oracle i l hub) "duration_s" = true := by
  cases h : oracle i <;> simp only [linkRecFor, h] <;> exact ⟨rfl, rfl⟩

/-- A successfully routed hub-edge record has the `distance_m` and
`duration_s` fields. -/
theorem hasKeys_routedEdgeRec (e : Edge) (r : RouteResult) :
    hasKey (routedEdgeRec e r) "distance_m" = true ∧
    hasKey (routedEdgeRec e r) "duration_s" = true :=
  ⟨rfl, rfl⟩

/-- Characterization of the hub-edge loop when every endpoint resolves:
it completes, issues one routing request per edge, and the `real_edges`
list has, at each position `j`, exactly the record the `try`/`except`
body produces for the `j`-th input edge. -/
theorem runEdges_resolved (hubs : List Hub) (oracle : ℕ → Option RouteResult)
    (edges : List Edge) : ∀ i₀ : ℕ,
    (∀ e ∈ edges, (hubsById hubs e.from_).isSome ∧ (hubsById hubs e.to_).isSome) →
    ∃ out, (runEdges hubs oracle edges i₀).1 = some out ∧
      (runEdges hubs oracle edges i₀).2 = edges.length ∧
      out.length = edges.length ∧
      ∀ j e, edges[j]? = some e → out[j]? = some (edgeRecFor oracle (i₀ + j) e) := by
  induction edges with
  | nil =>
    intro i₀ _
    exact ⟨[], rfl, rfl, rfl, fun j e hje => by simp at hje⟩
  | cons e rest ih =>
    intro i₀ h
    have he := h e (List.mem_cons_self e rest)
    obtain ⟨a, ha⟩ := Option.isSome_iff_exists.mp he.1
    obtain ⟨b, hb⟩ := Option.isSome_iff_exists.mp he.2
    obtain ⟨out, h1, h2, h3, h4⟩ :=
      ih (i₀ + 1) (fun e' he' => h e' (List.mem_cons_of_mem e he'))
    refine ⟨edgeRecFor oracle i₀ e :: out, ?_, ?_, ?_, ?_⟩
    · simp [runEdges, ha, hb, h1]
    · simp [runEdges, ha, hb, h2]
    · simp [h3]
    · intro j e' hje
      cases j with
      | zero =>
        simp only [List.getElem?_cons_zero, Option.some.injEq] at hje
        subst hje
        simp
      | succ j' =>
        simp only [List.getElem?_cons_succ] at hje ⊢
        have harith : i₀ + (j' + 1) = (i₀ + 1) + j' := by omega
        rw [harith]
        exact h4 j' e' hje

/-- Characterization of the location-link loop when every `hubId`
resolves: it completes, issues one routing request per location, and the
`real_links` list has, at each position `j`, exactly the record the
`try`/`except` body produces for the `j`-th input location and its hub. -/
theorem runLinks_resolved (hubs : List Hub) (oracle : ℕ → Option RouteResult)
    (locs : List Loc) : ∀ i₀ : ℕ,
    (∀ l ∈ locs, (hubsById hubs l.hubId).isSome) →
    ∃ out, (runLinks hubs oracle locs i₀).1 = some out ∧
      (runLinks hubs oracle locs i₀).2 = locs.length ∧
      out.length = locs.length ∧
      ∀ j l, locs[j]? = some l → ∃ hub, hubsById hubs l.hubId = some hub ∧
        out[j]? = some (linkRecFor oracle (i₀ + j) l hub) := by
  induction locs with
  | nil =>
    intro i₀ _
    exact ⟨[], rfl, rfl, rfl, fun j l hjl => by simp at hjl⟩
  | cons l rest ih =>
    intro i₀ h
    have hl := h l (List.mem_cons_self l rest)
    obtain ⟨hub, hhub⟩ := Option.isSome_iff_exists.mp hl
    obtain ⟨out, h1, h2, h3, h4⟩ :=
      ih (i₀ + 1) (fun l' hl' => h l' (List.mem_cons_of_mem l hl'))
    refine ⟨linkRecFor oracle i₀ l hub :: out, ?_, ?_, ?_, ?_⟩
    · simp [runLinks, hhub, h1]
    · simp [runLinks, hhub, h2]
    · simp [h3]
    · intro j l' hjl
      cases j with
      | zero =>
        simp only [List.getElem?_cons_zero, Option.some.injEq] at hjl
        subst hjl
        exact ⟨hub, hhub, by simp⟩
      | succ j' =>
        simp only [List.getElem?_cons_succ] at hjl ⊢
        have harith : i₀ + (j' + 1) = (i₀ + 1) + j' := by omega
        rw [harith]
        exact h4 j' l' hjl

/-- If every edge before `e` resolves and `e` references an unknown hub,
the hub-edge loop raises `KeyError` at `e`: no output, and exactly one
routing request per preceding edge was issued — none for `e` or after. -/
theorem runEdges_abort (hubs : List Hub) (oracle : ℕ → Option RouteResult) (e : Edge)
    (hbad : hubsById hubs e.from_ = none ∨ hubsById hubs e.to_ = none) :
    ∀ pre rest : List Edge, ∀ i₀ : ℕ,
    (∀ p ∈ pre, (hubsById hubs p.from_).isSome ∧ (hubsById hubs p.to_).isSome) →
    runEdges hubs oracle (pre ++ e :: rest) i₀ = (none, pre.length) := by
  intro pre
  induction pre with
  | nil =>
    intro rest i₀ _
    rcases hbad with hb | hb
    · simp [runEdges, hb]
    · cases hfa : hubsById hubs e.from_ <;> simp [runEdges, hb, hfa]
  | cons p pre' ih =>
    intro rest i₀ h
    have hp := h p (List.mem_cons_self p pre')
    obtain ⟨a, ha⟩ := Option.isSome_iff_exists.mp hp.1
    obtain ⟨b, hb2⟩ := Option.isSome_iff_exists.mp hp.2
    have hrec := ih rest (i₀ + 1) (fun q hq => h q (List.mem_cons_of_mem p hq))
    simp [runEdges, ha, hb2, hrec]

/-! ## Claim theorems -/

/-- C1: in every run in which all edge endpoints resolve, the output
Hub-edge collection contains exactly one record per input edge, in input
order, and each record's `from`/`to` fields equal the corresponding input
edge's `from`/`to`, whether the routing request succeeded or fell back. -/
theorem edges_output_one_per_edge_in_order
    (hubs : List Hub) (edges : List Edge) (oracle : ℕ → Option RouteResult)
    (h : ∀ e ∈ edges, (hubsById hubs e.from_).isSome ∧ (hubsById hubs e.to_).isSome) :
    ∃ out, (runEdges hubs oracle edges 0).1 = some out ∧
      out.length = edges.length ∧
      List.Forall₂ (fun e r => getKey r "from" = some (JVal.jStr e.from_) ∧
        getKey r "to" = some (JVal.jStr e.to_)) edges out := by
  obtain ⟨out, h1, _, h3, h4⟩ := runEdges_resolved hubs oracle edges 0 h
  refine ⟨out, h1, h3, ?_⟩
  rw [List.forall₂_iff_get]
  refine ⟨h3.symm, ?_⟩
  intro i hi1 hi2
  have hout := h4 i edges[i] (List.getElem?_eq_getElem hi1)
  rw [Nat.zero_add, List.getElem?_eq_getElem hi2] at hout
  have hval : out[i] = edgeRecFor oracle i edges[i] := Option.some_inj.mp hout
  simp only [List.get_eq_getElem]
  rw [hval]
  exact ⟨getKey_edgeRecFor_from oracle i edges[i], getKey_edgeRecFor_to oracle i edges[i]⟩

/-- Witness for C1 at the concrete scenario inputs with a failing router. -/
theorem edges_output_one_per_edge_in_order_witness :
    ∃ out, (runEdges demoHubs failOracle demoEdges 0).1 = some out ∧
      out.length = demoEdges.length ∧
      List.Forall₂ (fun e r => getKey r "from" = some (JVal.jStr e.from_) ∧
        getKey r "to" = some (JVal.jStr e.to_)) demoEdges out :=
  edges_output_one_per_edge_in_order demoHubs demoEdges failOracle (by decide)

/-- C2: a routing failure never aborts the run. For every pattern of
per-item routing outcomes (both oracles arbitrary), if all identifiers
resolve, `main` completes: every edge and every location is attempted
(one request each) and both output collections are produced in full. -/
theorem routing_failures_never_abort
    (hubs : List Hub) (edges : List Edge) (locs : List Loc)
    (eOracle lOracle : ℕ → Option RouteResult)
    (he : ∀ e ∈ edges, (hubsById hubs e.from_).isSome ∧ (hubsById hubs e.to_).isSome)
    (hl : ∀ l ∈ locs, (hubsById hubs l.hubId).isSome) :
    ∃ out, runMainT hubs edges locs eOracle lOracle =
        (some out, edges.length, locs.length) ∧
      out.real_edges.length = edges.length ∧
      out.real_links.length = locs.length := by
  obtain ⟨es, he1, he2, he3, _⟩ := runEdges_resolved hubs eOracle edges 0 he
  obtain ⟨ls, hl1, hl2, hl3, _⟩ := runLinks_resolved hubs lOracle locs 0 hl
  refine ⟨⟨es, ls⟩, ?_, he3, hl3⟩
  simp [runMainT, he1, hl1, he2, hl2]

/-- Witness for C2: every request fails, yet the run completes. -/
theorem routing_failures_never_abort_witness :
    ∃ out, runMainT demoHubs demoEdges demoLocs failOracle failOracle =
        (some out, demoEdges.length, demoLocs.length) ∧
      out.real_edges.length = demoEdges.length ∧
      out.real_links.length = demoLocs.length :=
  routing_failures_never_abort demoHubs demoEdges demoLocs failOracle failOracle
    (by decide) (by decide)

/-- C3: when the router fails for a location item, the emitted record has
`from` = location id, `to` = the location's `hubId`, `distance_m` = 0,
`duration_s` = 0, and `polyline` exactly
`[[loc.lng, loc.lat], [hub.lng, hub.lat]]`. -/
theorem link_fallback_straight_line
    (hubs : List Hub) (locs : List Loc) (oracle : ℕ → Option RouteResult)
    (h : ∀ l ∈ locs, (hubsById hubs l.hubId).isSome)
    (i : ℕ) (l : Loc) (hi : locs[i]? = some l) (hf : oracle i = none) :
    ∃ out hub, (runLinks hubs oracle locs 0).1 = some out ∧
      hubsById hubs l.hubId = some hub ∧
      out[i]? = some [("from", JVal.jStr l.id), ("to", JVal.jStr l.hubId),
        ("distance_m", JVal.jInt 0), ("duration_s", JVal.jInt 0),
        ("polyline", JVal.jCoords [(l.lng, l.lat), (hub.lng, hub.lat)])] := by
  obtain ⟨out, h1, _, _, h4⟩ := runLinks_resolved hubs oracle locs 0 h
  obtain ⟨hub, hh, hout⟩ := h4 i l hi
  rw [Nat.zero_add] at hout
  refine ⟨out, hub, h1, hh, ?_⟩
  rw [hout]
  simp only [linkRecFor, hf, fallbackLinkRec]

/-- Witness for C3 at the concrete scenario location with a failing
router. -/
theorem link_fallback_straight_line_witness :
    ∃ out hub, (runLinks demoHubs failOracle demoLocs 0).1 = some out ∧
      hubsById demoHubs demoLoc.hubId = some hub ∧
      out[0]? = some [("from", JVal.jStr demoLoc.id), ("to", JVal.jStr demoLoc.hubId),
        ("distance_m", JVal.jInt 0), ("duration_s", JVal.jInt 0),
        ("polyline", JVal.jCoords [(demoLoc.lng, demoLoc.lat), (hub.lng, hub.lat)])] :=
  link_fallback_straight_line demoHubs demoLocs failOracle (by decide) 0 demoLoc rfl rfl

/-- C4: when the router fails for a hub-edge item, the record emitted
into the output collection is the original input edge record unchanged
(the raw edge dict, with only the fields it has). -/
theorem edge_fallback_is_raw_input_edge
    (hubs : List Hub) (edges : List Edge) (oracle : ℕ → Option RouteResult)
    (h : ∀ e ∈ edges, (hubsById hubs e.from_).isSome ∧ (hubsById hubs e.to_).isSome)
    (i : ℕ) (e : Edge) (hi : edges[i]? = some e) (hf : oracle i = none) :
    ∃ out, (runEdges hubs oracle edges 0).1 = some out ∧
      out[i]? = some (edgeRec e) := by
  obtain ⟨out, h1, _, _, h4⟩ := runEdges_resolved hubs oracle edges 0 h
  have hout := h4 i e hi
  rw [Nat.zero_add] at hout
  refine ⟨out, h1, ?_⟩
  rw [hout]
  simp only [edgeRecFor, hf]

/-- Witness for C4 at the concrete scenario edge with a failing router. -/
theorem edge_fallback_is_raw_input_edge_witness :
    ∃ out, (runEdges demoHubs failOracle demoEdges 0).1 = some out ∧
      out[0]? = some (edgeRec ⟨"H1", "H2"⟩) :=
  edge_fallback_is_raw_input_edge demoHubs demoEdges failOracle (by decide) 0
    ⟨"H1", "H2"⟩ rfl rfl

/-- C7: in every run in which all location `hubId`s resolve, the output
Location-link collection has exactly one record per input location, with
`from` = location id and `to` = that location's hub id. -/
theorem links_output_one_per_location
    (hubs : List Hub) (locs : List Loc) (oracle : ℕ → Option RouteResult)
    (h : ∀ l ∈ locs, (hubsById hubs l.hubId).isSome) :
    ∃ out, (runLinks hubs oracle locs 0).1 = some out ∧
      out.length = locs.length ∧
      List.Forall₂ (fun l r => getKey r "from" = some (JVal.jStr l.id) ∧
        getKey r "to" = some (JVal.jStr l.hubId)) locs out := by
  obtain ⟨out, h1, _, h3, h4⟩ := runLinks_resolved hubs oracle locs 0 h
  refine ⟨out, h1, h3, ?_⟩
  rw [List.forall₂_iff_get]
  refine ⟨h3.symm, ?_⟩
  intro i hi1 hi2
  obtain ⟨hub, _, hout⟩ := h4 i locs[i] (List.getElem?_eq_getElem hi1)
  rw [Nat.zero_add, List.getElem?_eq_getElem hi2] at hout
  have hval : out[i] = linkRecFor oracle i locs[i] hub := Option.some_inj.mp hout
  simp only [List.get_eq_getElem]
  rw [hval]
  exact ⟨getKey_linkRecFor_from oracle i locs[i] hub, getKey_linkRecFor_to oracle i locs[i] hub⟩

/-- Witness for C7 at the concrete scenario inputs with a failing router. -/
theorem links_output_one_per_location_witness :
    ∃ out, (runLinks demoHubs failOracle demoLocs 0).1 = some out ∧
      out.length = demoLocs.length ∧
      List.Forall₂ (fun l r => getKey r "from" = some (JVal.jStr l.id) ∧
        getKey r "to" = some (JVal.jStr l.hubId)) demoLocs out :=
  links_output_one_per_location demoHubs demoLocs failOracle (by decide)

/-- C10 (implicit): the Location-link output preserves input order — the
record at position `i` of the output is exactly the one the loop body
produces for the location at position `i` of the input. -/
theorem links_output_position_matches
    (hubs : List Hub) (locs : List Loc) (oracle : ℕ → Option RouteResult)
    (h : ∀ l ∈ locs, (hubsById hubs l.hubId).isSome)
    (i : ℕ) (l : Loc) (hi : locs[i]? = some l) :
    ∃ out hub, (runLinks hubs oracle locs 0).1 = some out ∧
      hubsById hubs l.hubId = some hub ∧
      out[i]? = some (linkRecFor oracle i l hub) := by
  obtain ⟨out, h1, _, _, h4⟩ := runLinks_resolved hubs oracle locs 0 h
  obtain ⟨hub, hh, hout⟩ := h4 i l hi
  rw [Nat.zero_add] at hout
  exact ⟨out, hub, h1, hh, hout⟩

/-- Witness for C10 at the concrete scenario inputs. -/
theorem links_output_position_matches_witness :
    ∃ out hub, (runLinks demoHubs okOracle demoLocs 0).1 = some out ∧
      hubsById demoHubs demoLoc.hubId = some hub ∧
      out[0]? = some (linkRecFor okOracle 0 demoLoc hub) :=
  links_output_position_matches demoHubs demoLocs okOracle (by decide) 0 demoLoc rfl

/-- C5, counterexample: the claim "an edge referencing a nonexistent hub
id aborts the run before any network calls are made (no routing request
is issued for any item)" fails when the offending edge is not the first
item. With hubs = [H1] and edges = [H1→H1, H1→HX], the run aborts with no
output, but one routing request (for the first edge) was already issued —
not zero. -/
theorem missing_hub_abort_counterexample :
    runMainT cex5Hubs cex5Edges [] failOracle failOracle = (none, 1, 0) ∧
    (1 : ℕ) ≠ 0 :=
  ⟨rfl, Nat.one_ne_zero⟩

/-- C5 (amended): an edge referencing a nonexistent hub id aborts the run
before the routing request of the offending item — and of any later item —
is issued, and no output file is produced or modified; routing requests
for the items preceding the offending edge may already have been made
(exactly one per preceding edge). -/
theorem missing_hub_aborts_before_offending_request
    (hubs : List Hub) (pre rest : List Edge) (e : Edge) (locs : List Loc)
    (eOracle lOracle : ℕ → Option RouteResult)
    (hbad : hubsById hubs e.from_ = none ∨ hubsById hubs e.to_ = none)
    (hpre : ∀ p ∈ pre, (hubsById hubs p.from_).isSome ∧ (hubsById hubs p.to_).isSome) :
    runMainT hubs (pre ++ e :: rest) locs eOracle lOracle = (none, pre.length, 0) := by
  have h := runEdges_abort hubs eOracle e hbad pre rest 0 hpre
  simp [runMainT, h]

/-- Witness for the amended C5 at the counterexample input. -/
theorem missing_hub_aborts_before_offending_request_witness :
    runMainT cex5Hubs ([⟨"H1", "H1"⟩] ++ ⟨"H1", "HX"⟩ :: []) [] failOracle failOracle =
      (none, 1, 0) :=
  missing_hub_aborts_before_offending_request cex5Hubs [⟨"H1", "H1"⟩] [] ⟨"H1", "HX"⟩ []
    failOracle failOracle (Or.inr rfl) (by decide)

/-- C6, counterexample: the claim "every record in both output
collections has `distance_m` and `duration_s` present, including
fallback" fails for the hub-edge fallback path: when routing fails for an
edge, the script appends the raw input edge dict, which has only `from`
and `to`. -/
theorem distance_duration_missing_on_edge_fallback :
    (runEdges demoHubs failOracle demoEdges 0).1 =
      some [[("from", JVal.jStr "H1"), ("to", JVal.jStr "H2")]] ∧
    hasKey [("from", JVal.jStr "H1"), ("to", JVal.jStr "H2")] "distance_m" = false ∧
    hasKey [("from", JVal.jStr "H1"), ("to", JVal.jStr "H2")] "duration_s" = false :=
  ⟨rfl, rfl, rfl⟩

/-- C6 (amended): every record in the Location-link output has
`distance_m` and `duration_s` present, including fallback records (where
they are zero); in the Hub-edge output, records of successfully routed
edges have both fields, but a hub-edge fallback record is the raw input
edge and need not have them. -/
theorem distance_duration_presence_amended
    (hubs : List Hub) (edges : List Edge) (locs : List Loc)
    (eOracle lOracle : ℕ → Option RouteResult)
    (he : ∀ e ∈ edges, (hubsById hubs e.from_).isSome ∧ (hubsById hubs e.to_).isSome)
    (hl : ∀ l ∈ locs, (hubsById hubs l.hubId).isSome) :
    ∃ es ls, (runEdges hubs eOracle edges 0).1 = some es ∧
      (runLinks hubs lOracle locs 0).1 = some ls ∧
      (∀ r ∈ ls, hasKey r "distance_m" = true ∧ hasKey r "duration_s" = true) ∧
      (∀ j e rr, edges[j]? = some e → eOracle j = some rr →
        es[j]? = some (routedEdgeRec e rr) ∧
        hasKey (routedEdgeRec e rr) "distance_m" = true ∧
        hasKey (routedEdgeRec e rr) "duration_s" = true) := by
  obtain ⟨es, he1, _, _, he4⟩ := runEdges_resolved hubs eOracle edges 0 he
  obtain ⟨ls, hl1, _, hl3, hl4⟩ := runLinks_resolved hubs lOracle locs 0 hl
  refine ⟨es, ls, he1, hl1, ?_, ?_⟩
  · intro r hr
    obtain ⟨j, hj⟩ := List.mem_iff_getElem?.mp hr
    obtain ⟨hjlen, _⟩ := List.getElem?_eq_some.mp hj
    have hjloc : j < locs.length := hl3 ▸ hjlen
    obtain ⟨hub, _, hout⟩ := hl4 j locs[j] (List.getElem?_eq_getElem hjloc)
    rw [hj] at hout
    have hr' : r = linkRecFor lOracle (0 + j) locs[j] hub := Option.some_inj.mp hout
    rw [hr']
    exact hasKeys_linkRecFor lOracle (0 + j) locs[j] hub
  · intro j e rr hje hrr
    have hout := he4 j e hje
    rw [Nat.zero_add] at hout
    refine ⟨?_, hasKeys_routedEdgeRec e rr⟩
    rw [hout]
    simp only [edgeRecFor, hrr]

/-- Witness for the amended C6 at the scenario inputs: the edge request
succeeds, the location request fails. -/
theorem distance_duration_presence_amended_witness :
    ∃ es ls, (runEdges demoHubs okOracle demoEdges 0).1 = some es ∧
      (runLinks demoHubs failOracle demoLocs 0).1 = some ls ∧
      (∀ r ∈ ls, hasKey r "distance_m" = true ∧ hasKey r "duration_s" = true) ∧
      (∀ j e rr, demoEdges[j]? = some e → okOracle j = some rr →
        es[j]? = some (routedEdgeRec e rr) ∧
        hasKey (routedEdgeRec e rr) "distance_m" = true ∧
        hasKey (routedEdgeRec e rr) "duration_s" = true) :=
  distance_duration_presence_amended demoHubs demoEdges demoLocs okOracle failOracle
    (by decide) (by decide)

/-- C8: for the progress computation, under the facts true at every call
site in a run (`1 ≤ done ≤ total`, nonnegative elapsed time): the
percentage equals `done / total * 100`, lies in `[0, 100]`, and equals
100 exactly when `done = total`; the estimated remaining time is never
negative, equals `(total - done) / (done / elapsed)` when `elapsed > 0`,
and is 0 when `elapsed = 0`. -/
theorem progress_pct_eta_props (done total : ℕ) (elapsed : ℚ)
    (h1 : 1 ≤ done) (h2 : done ≤ total) (_h3 : 0 ≤ elapsed) :
    progressPct done total = ((done : ℚ) / (total : ℚ)) * 100 ∧
    0 ≤ progressPct done total ∧
    progressPct done total ≤ 100 ∧
    (progressPct done total = 100 ↔ done = total) ∧
    0 ≤ progressRemaining done total elapsed ∧
    (0 < elapsed →
      progressRemaining done total elapsed =
        ((total : ℚ) - (done : ℚ)) / ((done : ℚ) / elapsed)) ∧
    (elapsed = 0 → progressRemaining done total elapsed = 0) := by
  have ht : total ≠ 0 := by omega
  have htQ : (0 : ℚ) < (total : ℚ) := by exact_mod_cast Nat.pos_of_ne_zero ht
  have hdQ : (0 : ℚ) < (done : ℚ) := by exact_mod_cast h1
  have hdt : (done : ℚ) ≤ (total : ℚ) := by exact_mod_cast h2
  have hpct : progressPct done total = ((done : ℚ) / (total : ℚ)) * 100 := by
    simp [progressPct, ht]
  refine ⟨hpct, ?_, ?_, ?_, ?_, ?_, ?_⟩
  · rw [hpct]
    positivity
  · rw [hpct]
    have hle : (done : ℚ) / (total : ℚ) ≤ 1 := (div_le_one htQ).mpr hdt
    nlinarith
  · rw [hpct]
    constructor
    · intro hEq
      have hone : (done : ℚ) / (total : ℚ) = 1 := by linarith
      have := (div_eq_one_iff_eq (ne_of_gt htQ)).mp hone
      exact_mod_cast this
    · intro hEq
      rw [hEq, div_self (ne_of_gt htQ)]
      norm_num
  · rw [progressRemaining]
    split_ifs with hr
    · apply div_nonneg
      · linarith
      · exact le_of_lt hr
    · exact le_refl 0
  · intro hel
    have hrate : progressRate done elapsed = (done : ℚ) / elapsed := by
      simp [progressRate, hel]
    have hrpos : 0 < progressRate done elapsed := by
      rw [hrate]
      exact div_pos hdQ hel
    rw [progressRemaining, if_pos hrpos, hrate]
  · intro hel
    have hrate : progressRate done elapsed = 0 := by
      simp [progressRate, hel]
    simp [progressRemaining, hrate]

/-- Witness for C8 at `done = 2`, `total = 4`, `elapsed = 1`. -/
theorem progress_pct_eta_props_witness :
    progressPct 2 4 = (((2 : ℕ) : ℚ) / ((4 : ℕ) : ℚ)) * 100 ∧
    0 ≤ progressPct 2 4 ∧
    progressPct 2 4 ≤ 100 ∧
    (progressPct 2 4 = 100 ↔ (2 : ℕ) = 4) ∧
    0 ≤ progressRemaining 2 4 1 ∧
    ((0 : ℚ) < 1 →
      progressRemaining 2 4 1 =
        (((4 : ℕ) : ℚ) - ((2 : ℕ) : ℚ)) / (((2 : ℕ) : ℚ) / 1)) ∧
    ((1 : ℚ) = 0 → progressRemaining 2 4 1 = 0) :=
  progress_pct_eta_props 2 4 1 (by decide) (by decide) (by decide)

end PrecomputeRealRoutes
